import Mathlib

/-!
Verification of the supabase-keep-alive service (`src/api/keepalive.py`).

The module is embedded shallowly:

* a Python `dict` of string keys/values (a parsed config object) is an
  association list `List (String × String)`; `d[k]` is `getItem`, whose
  failure is a Python `KeyError`;
* the decoded JSON value held by `SUPABASE_CONFIG` is `JVal` (an object,
  an array, or any other JSON value, of which only the Python type name
  is relevant — it is what an `AttributeError` from `conf.keys()` shows);
* Python exceptions propagating out of a function are the `.error` case
  of `Except`; an expression that cannot raise is `.ok`;
* the Supabase client is an oracle `Backend` recording, for one request
  against one target, the outcome of each call the probe can make:
  client creation, the schema catalog query, the per-schema table
  catalog query, and the final lightweight row query.  Query results
  are lists of rows, a row being a `dict` of column name to value;
* FastAPI behaviour at the boundary: an `HTTPException` is the
  `PyErr.http` error, any other uncaught exception is `PyErr.exn`
  (FastAPI turns the former into its status code and the latter into a
  generic 500); a returned `JSONResponse` is a `Response` value.
-/

namespace Keepalive

/-- A parsed JSON object with string values: one target configuration. -/
abbrev Dict := List (String × String)

/-- A decoded JSON value, at the resolution the startup validation needs:
an object (keys and string values), an array, or anything else — for a
non-object element only the Python type name matters, since the only use
is `conf.keys()` raising `AttributeError` mentioning that type. -/
inductive JVal where
  | obj (fields : Dict)
  | arr (elems : List JVal)
  | other (tyName : String)

/-- `required_fields = {"name", "supabase_url", "supabase_key", "table_name"}`
(kept as a list in a canonical order; the Python set only supports the
membership and difference used below). -/
def requiredFields : List String :=
  ["name", "supabase_url", "supabase_key", "table_name"]

/-- `k in d.keys()` for a parsed config object. -/
def hasKey (d : Dict) (k : String) : Bool :=
  (d.lookup k).isSome

/-- `required_fields - conf.keys()`, in the canonical field order. -/
def missingFields (d : Dict) : List String :=
  requiredFields.filter (fun k => !(hasKey d k))

/-- The distinct exceptions the startup `try` block can catch, i.e. the
possible contents of `startup_error` (the code stores `str(e)`; the
constructors here keep the messages apart structurally, since the order
in which Python renders a set of missing field names is not fixed).
Each constructor carries exactly what the corresponding message records:
the field-missing `ValueError` message names the offending index and the
missing keys, while the `AttributeError` raised by `conf.keys()` on a
non-object element renders as `{ty} object has no attribute keys` —
only the element's Python type, no index. -/
inductive ConfigError where
  | decodeError (msg : String)
  | notArray
  | emptyArray
  | fieldMissing (idx : Nat) (missing : List String)
  | noKeysAttr (tyName : String)
deriving DecidableEq

/-- True exactly on the `fieldMissing` constructor. -/
def ConfigError.isFieldMissing : ConfigError → Bool
  | .fieldMissing _ _ => true
  | _ => false

/-- The validation loop
`for idx, conf in enumerate(config_list): missing = required_fields - conf.keys(); if missing: raise ...`.
A non-object element makes `conf.keys()` raise `AttributeError` before
the missing-field check can run. -/
def checkElems : Nat → List JVal → Except ConfigError (List Dict)
  | _, [] => .ok []
  | idx, (.obj d) :: rest =>
      if missingFields d = [] then
        match checkElems (idx + 1) rest with
        | .error e => .error e
        | .ok ds => .ok (d :: ds)
      else .error (.fieldMissing idx (missingFields d))
  | _, (.arr _) :: _ => .error (.noKeysAttr "list")
  | _, (.other ty) :: _ => .error (.noKeysAttr ty)

/-- The startup `try` body after `json.loads` succeeded: the
`isinstance(config_list, list)` check, the emptiness check, then the
per-element field check. -/
def validateConfig : JVal → Except ConfigError (List Dict)
  | .arr elems =>
      if elems.length = 0 then .error .emptyArray
      else checkElems 0 elems
  | .obj _ => .error .notArray
  | .other _ => .error .notArray

/-- The whole startup block: the input is the result of
`json.loads(SUPABASE_CONFIG_RAW)` (`.error m` when the raw string is not
valid JSON, in which case `json.loads` raises with message `m`).
`.ok cs` means `startup_error is None` and `config_list = cs`;
`.error e` means `startup_error = str(e)`.  (On failure the Python
`config_list` may retain a partially-validated value, but every route
short-circuits on `startup_error` before reading it, so that value is
unobservable.) -/
def loadConfig : Except String JVal → Except ConfigError (List Dict)
  | .error m => .error (.decodeError m)
  | .ok v => validateConfig v

/-- `conf[k]`: association-list lookup; a missing key raises `KeyError`. -/
def getItem (d : Dict) (k : String) : Except String String :=
  match d.lookup k with
  | some v => .ok v
  | none => .error ("KeyError: " ++ k)

/-- `[row[col] for row in rows]` — raises `KeyError` if a row lacks the
column. -/
def extractCol (rows : List Dict) (col : String) : Except String (List String) :=
  rows.mapM (fun r => getItem r col)

/-- One request-scoped view of one target backend: the outcome of each
external call `_perform_ping` can make through the Supabase client. -/
structure Backend where
  /-- `create_client(url, key)`: `.error` when it raises. -/
  createClient : String → String → Except String Unit
  /-- `supabase.sql(<schemata query>).execute().data`. -/
  schemataRows : Except String (List Dict)
  /-- `supabase.sql(<tables query for schema>).execute().data`. -/
  tablesRows : String → Except String (List Dict)
  /-- `supabase.table(target).select("*", count="exact").limit(1).execute()`
  for `target = "{schema}.{table}"`; only raising matters. -/
  tableSelect : String → Except String Unit

/-- `all_tables[schema] = tables` on a Python `dict` kept as an
insertion-ordered association list: replace in place when the key is
present, append otherwise. -/
def dictUpdate (d : List (String × List String)) (k : String) (v : List String) :
    List (String × List String) :=
  if d.any (fun p => p.1 == k) then
    d.map (fun p => if p.1 == k then (k, v) else p)
  else d ++ [(k, v)]

/-- The loop `for schema in schemas:` building `all_tables`, keeping only
schemas with at least one base table. -/
def collectTables (b : Backend) : List String → List (String × List String) →
    Except String (List (String × List String))
  | [], acc => .ok acc
  | s :: rest, acc =>
      match b.tablesRows s with
      | .error e => .error e
      | .ok rows =>
          match extractCol rows "table_name" with
          | .error e => .error e
          | .ok tables =>
              collectTables b rest (if tables = [] then acc else dictUpdate acc s tables)

/-- `", ".join([f"{s}: [{", ".join(ts)}]" for s, ts in all_tables.items()])`. -/
def schemaInfo (ats : List (String × List String)) : String :=
  String.intercalate ", "
    (ats.map (fun p => p.1 ++ ": [" ++ String.intercalate ", " p.2 ++ "]"))

/-- The body of the `try` block of `_perform_ping`, step by step; `.error`
is an exception reaching the `except` clause. -/
def pingBody (conf : Dict) (b : Backend) : Except String (Bool × String) :=
  match getItem conf "supabase_url" with
  | .error e => .error e
  | .ok url =>
  match getItem conf "supabase_key" with
  | .error e => .error e
  | .ok key =>
  match b.createClient url key with
  | .error e => .error e
  | .ok _ =>
  match b.schemataRows with
  | .error e => .error e
  | .ok rows =>
  match extractCol rows "schema_name" with
  | .error e => .error e
  | .ok schemas =>
  if schemas = [] then
    match getItem conf "name" with
    | .error e => .error e
    | .ok name => .ok (false, "No schemas found for " ++ name)
  else
  match collectTables b schemas [] with
  | .error e => .error e
  | .ok allTables =>
  match allTables with
  | [] =>
      match getItem conf "name" with
      | .error e => .error e
      | .ok name => .ok (false, "No tables found in any schema for " ++ name)
  | (firstSchema, firstTables) :: _ =>
  match firstTables with
  | [] => .error "IndexError: list index out of range"
  | firstTable :: _ =>
  match b.tableSelect (firstSchema ++ "." ++ firstTable) with
  | .error e => .error e
  | .ok _ =>
  match getItem conf "name" with
  | .error e => .error e
  | .ok name =>
      .ok (true, "Pinged " ++ name ++ " (schemas and tables: " ++
        schemaInfo allTables ++ ") successfully")

/-- `_perform_ping(conf)`: the `try` body wrapped by
`except Exception as e: return False, f"Error pinging {conf['name']}: {str(e)}"`.
The handler itself reads `conf["name"]`, so a configuration without that
key makes the handler raise — that `KeyError` propagates (`.error`). -/
def performPing (conf : Dict) (b : Backend) : Except String (Bool × String) :=
  match pingBody conf b with
  | .ok r => .ok r
  | .error e =>
      match getItem conf "name" with
      | .error e2 => .error e2
      | .ok name => .ok (false, "Error pinging " ++ name ++ ": " ++ e)

/-- How an exception escaping a route handler reaches FastAPI: an
`HTTPException` carries a status code and detail; anything else is an
unhandled error. -/
inductive PyErr where
  | http (code : Nat) (detail : String)
  | exn (msg : String)
deriving DecidableEq

/-- A `JSONResponse(status_code=..., content={"status": ..., "message": ...})`. -/
structure Response where
  statusCode : Nat
  status : String
  message : String
deriving DecidableEq

/-- `_get_conf_by_index(idx)`: 404 outside `[0, len(config_list))`, else
the element at that position. -/
def getConfByIndex (configs : List Dict) (idx : Int) : Except PyErr Dict :=
  if idx < 0 ∨ (configs.length : Int) ≤ idx then
    .error (.http 404 ("index " ++ toString idx ++ " 不存在"))
  else .ok (configs.getD idx.toNat [])

/-- `_get_conf_by_name(name)`: first config whose `"name"` value equals
the argument; 404 when none matches.  `conf["name"]` on an element
without the key raises `KeyError`. -/
def getConfByName (configs : List Dict) (name : String) : Except PyErr Dict :=
  match configs with
  | [] => .error (.http 404 ("name " ++ name ++ " 未找到对应配置"))
  | c :: rest =>
      match c.lookup "name" with
      | none => .error (.exn "KeyError: name")
      | some n => if n = name then .ok c else getConfByName rest name

/-- The loop of `keepalive_all`: `for idx, conf in enumerate(config_list):
success, msg = _perform_ping(conf)` collecting each probe outcome in
order (the code only keeps the success count; the full list determines
it).  `B i` is the backend state the probe of target `i` observes.  A
probe that raises aborts the loop. -/
def runPings (B : Nat → Backend) : Nat → List Dict → Except String (List (Bool × String))
  | _, [] => .ok []
  | i, c :: rest =>
      match performPing c (B i) with
      | .error e => .error e
      | .ok r =>
          match runPings B (i + 1) rest with
          | .error e => .error e
          | .ok rs => .ok (r :: rs)

/-- Route `GET /api/keepalive` and `/api/keepalive/all` (`keepalive_all`).
`se` is `startup_error`, `configs` is `config_list`. -/
def keepaliveAll (se : Option String) (configs : List Dict) (B : Nat → Backend) :
    Except PyErr Response :=
  match se with
  | some err => .ok ⟨500, "error", "Startup failed: " ++ err⟩
  | none =>
      match runPings B 0 configs with
      | .error e => .error (.exn e)
      | .ok results =>
          let successCount := results.countP (fun r => r.1)
          if successCount = configs.length then .ok ⟨200, "success", "ok"⟩
          else if successCount > 0 then .ok ⟨500, "error", "partial_failure"⟩
          else .ok ⟨500, "error", "all_failure"⟩

/-- Route `GET /api/keepalive/index/{idx}` (`keepalive_by_index`); the
bare `/api/keepalive/index` route is this at `idx = 0`. -/
def keepaliveByIndex (se : Option String) (configs : List Dict) (b : Backend)
    (idx : Int) : Except PyErr Response :=
  match se with
  | some err => .ok ⟨500, "error", "Startup failed: " ++ err⟩
  | none =>
      match getConfByIndex configs idx with
      | .error e => .error e
      | .ok conf =>
          match performPing conf b with
          | .error e => .error (.exn e)
          | .ok (success, msg) =>
              .ok ⟨if success then 200 else 500,
                   if success then "success" else "error", msg⟩

/-- Route `GET /api/keepalive/name/{conf_name}` (`keepalive_by_name`). -/
def keepaliveByName (se : Option String) (configs : List Dict) (b : Backend)
    (confName : String) : Except PyErr Response :=
  match se with
  | some err => .ok ⟨500, "error", "Startup failed: " ++ err⟩
  | none =>
      match getConfByName configs confName with
      | .error e => .error e
      | .ok conf =>
          match performPing conf b with
          | .error e => .error (.exn e)
          | .ok (success, msg) =>
              .ok ⟨if success then 200 else 500,
                   if success then "success" else "error", msg⟩

/-- A configuration list that passed startup validation: non-empty, and
every element carries all four required fields. -/
def ValidConfigList (cs : List Dict) : Prop :=
  cs ≠ [] ∧ ∀ c ∈ cs, ∀ k ∈ requiredFields, (c.lookup k).isSome

instance : DecidablePred ValidConfigList := fun cs => by
  unfold ValidConfigList; infer_instance

/-- A config-list element that passes the per-element validation: an
object with no missing required field. -/
def elemOk : JVal → Bool
  | .obj d => (missingFields d).isEmpty
  | .arr _ => false
  | .other _ => false

/-- Whether a finished configuration load recorded a field-missing
startup error. -/
def loadErrorIsFieldMissing (r : Except ConfigError (List Dict)) : Bool :=
  match r with
  | .error e => e.isFieldMissing
  | .ok _ => false

/-! ### Concrete backends and configurations used to instantiate theorems -/

/-- A backend on which the whole probe succeeds: one schema `public`
holding one table `todos`. -/
def bkOk : Backend where
  createClient := fun _ _ => .ok ()
  schemataRows := .ok [[("schema_name", "public")]]
  tablesRows := fun _ => .ok [[("table_name", "todos")]]
  tableSelect := fun _ => .ok ()

/-- A backend whose client creation raises. -/
def bkFail : Backend where
  createClient := fun _ _ => .error "connection refused"
  schemataRows := .ok []
  tablesRows := fun _ => .ok []
  tableSelect := fun _ => .ok ()

/-- A backend that connects but reports no non-system schemas. -/
def bkNoSchemas : Backend where
  createClient := fun _ _ => .ok ()
  schemataRows := .ok []
  tablesRows := fun _ => .ok []
  tableSelect := fun _ => .ok ()

/-- A backend with two schemas, neither holding a base table. -/
def bkNoTables : Backend where
  createClient := fun _ _ => .ok ()
  schemataRows := .ok [[("schema_name", "public")], [("schema_name", "extra")]]
  tablesRows := fun _ => .ok []
  tableSelect := fun _ => .ok ()

/-- A fully valid sample configuration. -/
def confA : Dict :=
  [("name", "a"), ("supabase_url", "https://a.supabase.co"),
   ("supabase_key", "ka"), ("table_name", "todos")]

/-- A second valid sample configuration. -/
def confB : Dict :=
  [("name", "b"), ("supabase_url", "https://b.supabase.co"),
   ("supabase_key", "kb"), ("table_name", "todos")]

/-- A valid configuration whose `name` duplicates `confA`, with different
connection data. -/
def confA2 : Dict :=
  [("name", "a"), ("supabase_url", "https://dup.supabase.co"),
   ("supabase_key", "kdup"), ("table_name", "todos")]

/-! ### Helper lemmas -/

theorem getItem_ok {d : Dict} {k v : String} (h : d.lookup k = some v) :
    getItem d k = .ok v := by
  unfold getItem; rw [h]

/-- A configuration that has a `"name"` field makes `_perform_ping` total:
the `except` handler always produces a value. -/
theorem performPing_total {conf : Dict} (b : Backend) {nm : String}
    (h : conf.lookup "name" = some nm) :
    ∃ r, performPing conf b = .ok r := by
  cases hb : pingBody conf b with
  | ok r => exact ⟨r, by unfold performPing; rw [hb]⟩
  | error e =>
      exact ⟨(false, "Error pinging " ++ nm ++ ": " ++ e),
        by unfold performPing; rw [hb, getItem_ok h]⟩

/-- The only values the `try` body of `_perform_ping` can return. -/
theorem pingBody_ok_shape {conf : Dict} {b : Backend} {ok : Bool} {msg nm : String}
    (hn : conf.lookup "name" = some nm)
    (h : pingBody conf b = .ok (ok, msg)) :
    (ok = false ∧ msg = "No schemas found for " ++ nm) ∨
    (ok = false ∧ msg = "No tables found in any schema for " ++ nm) ∨
    (ok = true ∧ ∃ ats, msg = "Pinged " ++ nm ++ " (schemas and tables: " ++
        schemaInfo ats ++ ") successfully") := by
  have hname : getItem conf "name" = Except.ok nm := getItem_ok hn
  unfold pingBody at h
  rcases hu : getItem conf "supabase_url" with e | url <;> rw [hu] at h <;>
    dsimp only at h
  · cases h
  rcases hk : getItem conf "supabase_key" with e | key <;> rw [hk] at h <;>
    dsimp only at h
  · cases h
  rcases hc : b.createClient url key with e | u <;> rw [hc] at h <;>
    dsimp only at h
  · cases h
  rcases hr : b.schemataRows with e | rows <;> rw [hr] at h <;> dsimp only at h
  · cases h
  rcases he : extractCol rows "schema_name" with e | schemas <;> rw [he] at h <;>
    dsimp only at h
  · cases h
  by_cases hs : schemas = []
  · rw [if_pos hs, hname] at h
    dsimp only at h
    injection h with h1
    injection h1 with hok hmsg
    exact Or.inl ⟨hok.symm, hmsg.symm⟩
  rw [if_neg hs] at h
  rcases hct : collectTables b schemas [] with e | ats <;> rw [hct] at h <;>
    dsimp only at h
  · cases h
  rcases ats with _ | ⟨⟨s0, ts0⟩, rest⟩
  · dsimp only at h
    rw [hname] at h
    dsimp only at h
    injection h with h1
    injection h1 with hok hmsg
    exact Or.inr (Or.inl ⟨hok.symm, hmsg.symm⟩)
  rcases ts0 with _ | ⟨t0, ts⟩
  · dsimp only at h
    cases h
  dsimp only at h
  rcases hts : b.tableSelect (s0 ++ "." ++ t0) with e | u2 <;> rw [hts] at h <;>
    dsimp only at h
  · cases h
  rw [hname] at h
  dsimp only at h
  injection h with h1
  injection h1 with hok hmsg
  exact Or.inr (Or.inr ⟨hok.symm, ⟨(s0, t0 :: ts) :: rest, hmsg.symm⟩⟩)

/-! ### Claims -/

/-- Claim C2: for every target configuration (an element of the validated
`config_list`, hence carrying its `"name"` field), `_perform_ping` never
propagates an exception: it returns a pair, and whenever the success flag
is false the message is `"Error pinging {name}: {detail}"` or one of the
two stage-specific messages. -/
theorem perform_ping_never_raises (conf : Dict) (b : Backend) (nm : String)
    (hn : conf.lookup "name" = some nm) :
    ∃ ok msg, performPing conf b = .ok (ok, msg) ∧
      (ok = false →
        (∃ detail, msg = "Error pinging " ++ nm ++ ": " ++ detail) ∨
        msg = "No schemas found for " ++ nm ∨
        msg = "No tables found in any schema for " ++ nm) := by
  cases hb : pingBody conf b with
  | error e =>
      refine ⟨false, "Error pinging " ++ nm ++ ": " ++ e, ?_, ?_⟩
      · unfold performPing
        rw [hb, getItem_ok hn]
      · intro _
        exact Or.inl ⟨e, rfl⟩
  | ok r =>
      obtain ⟨ok, msg⟩ := r
      refine ⟨ok, msg, by unfold performPing; rw [hb], ?_⟩
      intro hfalse
      rcases pingBody_ok_shape hn hb with ⟨_, hm⟩ | ⟨_, hm⟩ | ⟨htrue, _⟩
      · exact Or.inr (Or.inl hm)
      · exact Or.inr (Or.inr hm)
      · rw [hfalse] at htrue
        cases htrue

/-- Witness for C2: the never-raises theorem evaluated on a valid
configuration against a backend whose client creation raises. -/
theorem perform_ping_never_raises_witness :
    ∃ ok msg, performPing confA bkFail = .ok (ok, msg) ∧
      (ok = false →
        (∃ detail, msg = "Error pinging " ++ "a" ++ ": " ++ detail) ∨
        msg = "No schemas found for " ++ "a" ∨
        msg = "No tables found in any schema for " ++ "a") :=
  perform_ping_never_raises confA bkFail "a" (by decide)

/-- Claim C3: once `startup_error` is set, all three routes return 500 with
`{status: "error", message: "Startup failed: {startup_error}"}`.  The
conclusion holds for arbitrary backends `B`, `b`, `b2` — the response does
not depend on them, so no probe (hence no network call) is made. -/
theorem startup_error_short_circuits (err : String) (configs : List Dict)
    (B : Nat → Backend) (b b2 : Backend) (idx : Int) (nm : String) :
    keepaliveAll (some err) configs B =
      .ok ⟨500, "error", "Startup failed: " ++ err⟩ ∧
    keepaliveByIndex (some err) configs b idx =
      .ok ⟨500, "error", "Startup failed: " ++ err⟩ ∧
    keepaliveByName (some err) configs b2 nm =
      .ok ⟨500, "error", "Startup failed: " ++ err⟩ :=
  ⟨rfl, rfl, rfl⟩

/-- Claim C5: `_get_conf_by_index` yields 404 exactly outside
`[0, len(config_list))` (the 404 also surfaces through the route), and the
configuration at position `idx` inside the range. -/
theorem get_by_index_spec (configs : List Dict) (b : Backend) (idx : Int) :
    ((idx < 0 ∨ (configs.length : Int) ≤ idx) →
       getConfByIndex configs idx =
         .error (.http 404 ("index " ++ toString idx ++ " 不存在")) ∧
       keepaliveByIndex none configs b idx =
         .error (.http 404 ("index " ++ toString idx ++ " 不存在"))) ∧
    (0 ≤ idx → idx < (configs.length : Int) →
       getConfByIndex configs idx = .ok (configs.getD idx.toNat [])) := by
  constructor
  · intro hout
    have h1 : getConfByIndex configs idx =
        .error (.http 404 ("index " ++ toString idx ++ " 不存在")) := by
      unfold getConfByIndex
      rw [if_pos hout]
    refine ⟨h1, ?_⟩
    unfold keepaliveByIndex
    rw [h1]
  · intro h0 hlt
    unfold getConfByIndex
    rw [if_neg (by omega)]

/-- Witness for C5: a one-element configuration list, probed at the
out-of-range index 5 and the in-range index 0. -/
theorem get_by_index_spec_witness :
    (getConfByIndex [confA] 5 =
       .error (.http 404 ("index " ++ toString (5 : Int) ++ " 不存在")) ∧
     keepaliveByIndex none [confA] bkOk 5 =
       .error (.http 404 ("index " ++ toString (5 : Int) ++ " 不存在"))) ∧
    getConfByIndex [confA] 0 = .ok ([confA].getD (Int.toNat 0) []) :=
  ⟨(get_by_index_spec [confA] bkOk 5).1 (by decide),
   (get_by_index_spec [confA] bkOk 0).2 (by decide) (by decide)⟩

/-- Claim C9: `_perform_ping` never reads `table_name`: two configurations
agreeing on `name`, `supabase_url` and `supabase_key` (and differing
arbitrarily elsewhere, in particular in `table_name`, present or absent)
probe identically against the same backend. -/
theorem ping_ignores_table_name (c1 c2 : Dict) (b : Backend)
    (h1 : c1.lookup "name" = c2.lookup "name")
    (h2 : c1.lookup "supabase_url" = c2.lookup "supabase_url")
    (h3 : c1.lookup "supabase_key" = c2.lookup "supabase_key") :
    performPing c1 b = performPing c2 b := by
  have g1 : getItem c1 "name" = getItem c2 "name" := by
    unfold getItem; rw [h1]
  have g2 : getItem c1 "supabase_url" = getItem c2 "supabase_url" := by
    unfold getItem; rw [h2]
  have g3 : getItem c1 "supabase_key" = getItem c2 "supabase_key" := by
    unfold getItem; rw [h3]
  unfold performPing pingBody
  rw [g1, g2, g3]

/-- Witness for C9: `confA` with its `table_name` changed, and with it
removed, probe the same as `confA`. -/
theorem ping_ignores_table_name_witness :
    performPing [("name", "a"), ("supabase_url", "https://a.supabase.co"),
        ("supabase_key", "ka"), ("table_name", "other")] bkOk =
      performPing confA bkOk ∧
    performPing [("name", "a"), ("supabase_url", "https://a.supabase.co"),
        ("supabase_key", "ka")] bkOk =
      performPing confA bkOk :=
  ⟨ping_ignores_table_name _ confA bkOk (by decide) (by decide) (by decide),
   ping_ignores_table_name _ confA bkOk (by decide) (by decide) (by decide)⟩

/-- When no configuration carries the requested name, `_get_conf_by_name`
raises its 404. -/
theorem getConfByName_notfound (nm : String) (cs : List Dict)
    (hs : ∀ c ∈ cs, (c.lookup "name").isSome)
    (hn : ∀ c ∈ cs, c.lookup "name" ≠ some nm) :
    getConfByName cs nm = .error (.http 404 ("name " ++ nm ++ " 未找到对应配置")) := by
  induction cs with
  | nil => rfl
  | cons c rest ih =>
      obtain ⟨n, hn1⟩ := Option.isSome_iff_exists.mp (hs c (by simp))
      have hne : ¬ n = nm := fun heq => hn c (by simp) (heq ▸ hn1)
      unfold getConfByName
      rw [hn1]
      dsimp only
      rw [if_neg hne]
      exact ih (fun d hd => hs d (by simp [hd])) (fun d hd => hn d (by simp [hd]))

/-- `_get_conf_by_name` returns the lowest-index configuration whose name
matches. -/
theorem getConfByName_first (nm : String) (cs : List Dict) (i : Nat)
    (hs : ∀ c ∈ cs, (c.lookup "name").isSome)
    (hi : i < cs.length)
    (hmatch : (cs.getD i []).lookup "name" = some nm)
    (hbefore : ∀ j, j < i → (cs.getD j []).lookup "name" ≠ some nm) :
    getConfByName cs nm = .ok (cs.getD i []) := by
  induction cs generalizing i with
  | nil => exact absurd hi (Nat.not_lt_zero i)
  | cons c rest ih =>
      cases i with
      | zero =>
          simp only [List.getD_cons_zero] at hmatch ⊢
          unfold getConfByName
          rw [hmatch]
          dsimp only
          rw [if_pos rfl]
      | succ i =>
          have hc : c.lookup "name" ≠ some nm := by
            simpa using hbefore 0 (Nat.succ_pos i)
          obtain ⟨n, hn1⟩ := Option.isSome_iff_exists.mp (hs c (by simp))
          have hne : ¬ n = nm := fun heq => hc (heq ▸ hn1)
          unfold getConfByName
          rw [hn1]
          dsimp only
          rw [if_neg hne]
          simp only [List.getD_cons_succ] at hmatch ⊢
          exact ih i (fun d hd => hs d (by simp [hd])) (by simpa using hi) hmatch
            (fun j hj => by simpa using hbefore (j + 1) (by omega))

/-- Claim C6: a name matching no configuration yields 404 (also through
the route); with duplicate names the lowest-index match is returned. -/
theorem get_by_name_spec (configs : List Dict) (b : Backend) (nm : String)
    (hs : ∀ c ∈ configs, (c.lookup "name").isSome) :
    ((∀ c ∈ configs, c.lookup "name" ≠ some nm) →
       getConfByName configs nm =
         .error (.http 404 ("name " ++ nm ++ " 未找到对应配置")) ∧
       keepaliveByName none configs b nm =
         .error (.http 404 ("name " ++ nm ++ " 未找到对应配置"))) ∧
    (∀ i, i < configs.length →
       (configs.getD i []).lookup "name" = some nm →
       (∀ j, j < i → (configs.getD j []).lookup "name" ≠ some nm) →
       getConfByName configs nm = .ok (configs.getD i [])) := by
  constructor
  · intro hn
    have h1 := getConfByName_notfound nm configs hs hn
    refine ⟨h1, ?_⟩
    unfold keepaliveByName
    rw [h1]
  · intro i hi hmatch hbefore
    exact getConfByName_first nm configs i hs hi hmatch hbefore

/-- Witness for C6: in `[confA, confB, confA2]` the name `c` is unknown
(404), and the duplicated name `a` resolves to the first-inserted
`confA`, not `confA2`. -/
theorem get_by_name_spec_witness :
    (getConfByName [confA, confB, confA2] "c" =
       .error (.http 404 ("name " ++ "c" ++ " 未找到对应配置")) ∧
     keepaliveByName none [confA, confB, confA2] bkOk "c" =
       .error (.http 404 ("name " ++ "c" ++ " 未找到对应配置"))) ∧
    getConfByName [confA, confB, confA2] "a" =
      .ok ([confA, confB, confA2].getD 0 []) :=
  ⟨(get_by_name_spec [confA, confB, confA2] bkOk "c" (by decide)).1 (by decide),
   (get_by_name_spec [confA, confB, confA2] bkOk "a" (by decide)).2 0 (by decide)
     (by decide) (fun j hj => absurd hj (Nat.not_lt_zero j))⟩

/-- `extractCol` of no rows is no values. -/
theorem extractCol_nil (col : String) : extractCol [] col = .ok [] := rfl

/-- When every schema reports zero tables, the `all_tables` accumulator
is left untouched. -/
theorem collectTables_empty (b : Backend) (schemas : List String)
    (h : ∀ s ∈ schemas, b.tablesRows s = .ok []) :
    ∀ acc, collectTables b schemas acc = .ok acc := by
  induction schemas with
  | nil => intro acc; rfl
  | cons s rest ih =>
      intro acc
      unfold collectTables
      rw [h s (by simp)]
      dsimp only
      rw [extractCol_nil]
      dsimp only
      rw [if_pos rfl]
      exact ih (fun t ht => h t (by simp [ht])) acc

/-- Claim C7: with a working connection, an empty schema catalog yields
`success=false` with `"No schemas found for {name}"`; a non-empty schema
catalog in which no schema holds a base table yields `success=false`
with `"No tables found in any schema for {name}"`. -/
theorem ping_stage_messages (conf : Dict) (b : Backend) (nm url key : String)
    (hn : conf.lookup "name" = some nm)
    (hu : conf.lookup "supabase_url" = some url)
    (hk : conf.lookup "supabase_key" = some key)
    (hc : b.createClient url key = .ok ()) :
    (b.schemataRows = .ok [] →
       performPing conf b = .ok (false, "No schemas found for " ++ nm)) ∧
    (∀ rows schemas, b.schemataRows = .ok rows →
       extractCol rows "schema_name" = .ok schemas → schemas ≠ [] →
       (∀ s ∈ schemas, b.tablesRows s = .ok []) →
       performPing conf b =
         .ok (false, "No tables found in any schema for " ++ nm)) := by
  constructor
  · intro hrows
    have hbody : pingBody conf b = .ok (false, "No schemas found for " ++ nm) := by
      unfold pingBody
      rw [getItem_ok hu]
      dsimp only
      rw [getItem_ok hk]
      dsimp only
      rw [hc]
      dsimp only
      rw [hrows]
      dsimp only
      rw [extractCol_nil]
      dsimp only
      rw [if_pos rfl, getItem_ok hn]
    unfold performPing
    rw [hbody]
  · intro rows schemas hrows hext hne htab
    have hbody : pingBody conf b =
        .ok (false, "No tables found in any schema for " ++ nm) := by
      unfold pingBody
      rw [getItem_ok hu]
      dsimp only
      rw [getItem_ok hk]
      dsimp only
      rw [hc]
      dsimp only
      rw [hrows]
      dsimp only
      rw [hext]
      dsimp only
      rw [if_neg hne, collectTables_empty b schemas htab []]
      dsimp only
      rw [getItem_ok hn]
    unfold performPing
    rw [hbody]

/-- Witness for C7: `confA` probed against a backend with no schemas, and
against one with two empty schemas. -/
theorem ping_stage_messages_witness :
    performPing confA bkNoSchemas = .ok (false, "No schemas found for " ++ "a") ∧
    performPing confA bkNoTables =
      .ok (false, "No tables found in any schema for " ++ "a") :=
  ⟨(ping_stage_messages confA bkNoSchemas "a" "https://a.supabase.co" "ka"
      (by decide) (by decide) (by decide) rfl).1 rfl,
   (ping_stage_messages confA bkNoTables "a" "https://a.supabase.co" "ka"
      (by decide) (by decide) (by decide) rfl).2
     [[("schema_name", "public")], [("schema_name", "extra")]]
     ["public", "extra"] rfl rfl (by decide) (fun s _ => rfl)⟩

/-- Claim C8: a probe that succeeds end-to-end — connection made, schema
catalog read, at least one schema retained with its tables, lightweight
query answered — returns `success=true` with the message
`"Pinged {name} (schemas and tables: {schema_info}) successfully"`, where
`schema_info` renders the retained mapping in the
`"ns1: [t1, t2], ns2: [t3]"` format (`schemaInfo`). -/
theorem ping_success_message (conf : Dict) (b : Backend)
    (nm url key : String) (rows : List Dict) (schemas : List String)
    (s0 t0 : String) (ts : List String) (rest : List (String × List String))
    (hn : conf.lookup "name" = some nm)
    (hu : conf.lookup "supabase_url" = some url)
    (hk : conf.lookup "supabase_key" = some key)
    (hc : b.createClient url key = .ok ())
    (hrows : b.schemataRows = .ok rows)
    (hext : extractCol rows "schema_name" = .ok schemas)
    (hne : schemas ≠ [])
    (hct : collectTables b schemas [] = .ok ((s0, t0 :: ts) :: rest))
    (hsel : b.tableSelect (s0 ++ "." ++ t0) = .ok ()) :
    performPing conf b =
      .ok (true, "Pinged " ++ nm ++ " (schemas and tables: " ++
        schemaInfo ((s0, t0 :: ts) :: rest) ++ ") successfully") := by
  have hbody : pingBody conf b =
      .ok (true, "Pinged " ++ nm ++ " (schemas and tables: " ++
        schemaInfo ((s0, t0 :: ts) :: rest) ++ ") successfully") := by
    unfold pingBody
    rw [getItem_ok hu]
    dsimp only
    rw [getItem_ok hk]
    dsimp only
    rw [hc]
    dsimp only
    rw [hrows]
    dsimp only
    rw [hext]
    dsimp only
    rw [if_neg hne, hct]
    dsimp only
    rw [hsel]
    dsimp only
    rw [getItem_ok hn]
  unfold performPing
  rw [hbody]

/-- Witness for C8: the fully successful probe of `confA` against `bkOk`,
whose message is
`"Pinged a (schemas and tables: public: [todos]) successfully"`. -/
theorem ping_success_message_witness :
    performPing confA bkOk =
      .ok (true, "Pinged " ++ "a" ++ " (schemas and tables: " ++
        schemaInfo [("public", ["todos"])] ++ ") successfully") :=
  ping_success_message confA bkOk "a" "https://a.supabase.co" "ka"
    [[("schema_name", "public")]] ["public"] "public" "todos" [] []
    (by decide) (by decide) (by decide) rfl rfl rfl (by decide) rfl rfl

/-- Over configurations that all carry a `"name"` field no probe raises,
so the `keepalive_all` loop runs to the end: it produces one result per
configured target, the `j`-th being exactly the probe of the `j`-th
target. -/
theorem runPings_ok (configs : List Dict) (B : Nat → Backend)
    (hname : ∀ c ∈ configs, (c.lookup "name").isSome) :
    ∀ start, ∃ results, runPings B start configs = .ok results ∧
      results.length = configs.length ∧
      ∀ j, j < configs.length →
        performPing (configs.getD j []) (B (start + j)) =
          .ok (results.getD j (false, "")) := by
  induction configs with
  | nil =>
      intro start
      exact ⟨[], rfl, rfl, fun j hj => absurd hj (Nat.not_lt_zero j)⟩
  | cons c rest ih =>
      intro start
      obtain ⟨n, hn1⟩ := Option.isSome_iff_exists.mp (hname c (by simp))
      obtain ⟨r, hr⟩ := performPing_total (B start) hn1
      obtain ⟨rs, hrs, hlen, hpt⟩ :=
        ih (fun d hd => hname d (by simp [hd])) (start + 1)
      refine ⟨r :: rs, ?_, by simp [hlen], ?_⟩
      · unfold runPings
        rw [hr]
        dsimp only
        rw [hrs]
      · intro j hj
        cases j with
        | zero => simpa using hr
        | succ j =>
            have harith : start + (j + 1) = start + 1 + j := by omega
            simp only [List.getD_cons_succ, harith]
            exact hpt j (by simpa using hj)

/-- Claim C1: over a valid configuration list `keepalive_all` probes every
target exactly once (one result per target, the `j`-th being the probe of
target `j`), and responds 200/`success`/`"ok"` iff every probe succeeded,
500/`error`/`"all_failure"` iff none did, and 500/`error`/
`"partial_failure"` in exactly the remaining cases. -/
theorem keepalive_all_spec (configs : List Dict) (B : Nat → Backend)
    (hne : configs ≠ [])
    (hname : ∀ c ∈ configs, (c.lookup "name").isSome) :
    ∃ results r, runPings B 0 configs = .ok results ∧
      results.length = configs.length ∧
      (∀ j, j < configs.length →
        performPing (configs.getD j []) (B j) =
          .ok (results.getD j (false, ""))) ∧
      keepaliveAll none configs B = .ok r ∧
      (r = ⟨200, "success", "ok"⟩ ↔
        results.countP (fun p => p.1) = configs.length) ∧
      (r = ⟨500, "error", "all_failure"⟩ ↔
        results.countP (fun p => p.1) = 0) ∧
      (r = ⟨500, "error", "partial_failure"⟩ ↔
        (results.countP (fun p => p.1) ≠ configs.length ∧
         results.countP (fun p => p.1) ≠ 0)) := by
  obtain ⟨results, hrs, hlen, hpt⟩ := runPings_ok configs B hname 0
  have hpt0 : ∀ j, j < configs.length →
      performPing (configs.getD j []) (B j) = .ok (results.getD j (false, "")) := by
    intro j hj
    simpa using hpt j hj
  have hlen0 : configs.length ≠ 0 := fun h => hne (List.length_eq_zero.mp h)
  by_cases h1 : results.countP (fun p => p.1) = configs.length
  · have hall : keepaliveAll none configs B = .ok ⟨200, "success", "ok"⟩ := by
      unfold keepaliveAll
      rw [hrs]
      dsimp only
      rw [if_pos h1]
    refine ⟨results, _, hrs, hlen, hpt0, hall, ?_, ?_, ?_⟩
    · exact ⟨fun _ => h1, fun _ => rfl⟩
    · exact ⟨fun h => absurd h (by decide), fun h => by omega⟩
    · exact ⟨fun h => absurd h (by decide), fun h => absurd h1 h.1⟩
  · by_cases h2 : results.countP (fun p => p.1) > 0
    · have hall : keepaliveAll none configs B =
          .ok ⟨500, "error", "partial_failure"⟩ := by
        unfold keepaliveAll
        rw [hrs]
        dsimp only
        rw [if_neg h1, if_pos h2]
      refine ⟨results, _, hrs, hlen, hpt0, hall, ?_, ?_, ?_⟩
      · exact ⟨fun h => absurd h (by decide), fun h => absurd h h1⟩
      · exact ⟨fun h => absurd h (by decide), fun h => by omega⟩
      · exact ⟨fun _ => ⟨h1, by omega⟩, fun _ => rfl⟩
    · have hall : keepaliveAll none configs B =
          .ok ⟨500, "error", "all_failure"⟩ := by
        unfold keepaliveAll
        rw [hrs]
        dsimp only
        rw [if_neg h1, if_neg h2]
      refine ⟨results, _, hrs, hlen, hpt0, hall, ?_, ?_, ?_⟩
      · exact ⟨fun h => absurd h (by decide), fun h => absurd h h1⟩
      · exact ⟨fun _ => by omega, fun _ => rfl⟩
      · exact ⟨fun h => absurd h (by decide), fun h => absurd (by omega) h.2⟩

/-- Witness for C1: two valid targets, the first probing successfully and
the second failing to connect, classified as `partial_failure`. -/
theorem keepalive_all_spec_witness :
    ∃ results r,
      runPings (fun i => if i = 0 then bkOk else bkFail) 0 [confA, confB] =
        .ok results ∧
      results.length = [confA, confB].length ∧
      (∀ j, j < [confA, confB].length →
        performPing ([confA, confB].getD j [])
            ((fun i => if i = 0 then bkOk else bkFail) j) =
          .ok (results.getD j (false, ""))) ∧
      keepaliveAll none [confA, confB]
          (fun i => if i = 0 then bkOk else bkFail) = .ok r ∧
      (r = ⟨200, "success", "ok"⟩ ↔
        results.countP (fun p => p.1) = [confA, confB].length) ∧
      (r = ⟨500, "error", "all_failure"⟩ ↔
        results.countP (fun p => p.1) = 0) ∧
      (r = ⟨500, "error", "partial_failure"⟩ ↔
        (results.countP (fun p => p.1) ≠ [confA, confB].length ∧
         results.countP (fun p => p.1) ≠ 0)) :=
  keepalive_all_spec [confA, confB] (fun i => if i = 0 then bkOk else bkFail)
    (by decide) (by decide)

/-- A successful validation loop keeps one object per element, each with
no missing required field. -/
theorem checkElems_ok_props (elems : List JVal) :
    ∀ start ds, checkElems start elems = .ok ds →
      ds.length = elems.length ∧ ∀ d ∈ ds, missingFields d = [] := by
  induction elems with
  | nil =>
      intro start ds h
      cases h
      exact ⟨rfl, by simp⟩
  | cons e rest ih =>
      intro start ds h
      cases e with
      | obj d =>
          unfold checkElems at h
          by_cases hm : missingFields d = []
          · rw [if_pos hm] at h
            cases hrec : checkElems (start + 1) rest with
            | error er =>
                rw [hrec] at h
                cases h
            | ok ds2 =>
                rw [hrec] at h
                dsimp only at h
                injection h with h1
                subst h1
                obtain ⟨hl, hall⟩ := ih (start + 1) ds2 hrec
                refine ⟨by simp [hl], ?_⟩
                intro x hx
                rcases List.mem_cons.mp hx with hx | hx
                · exact hx ▸ hm
                · exact hall x hx
          · rw [if_neg hm] at h
            cases h
      | arr l =>
          unfold checkElems at h
          cases h
      | other ty =>
          unfold checkElems at h
          cases h

/-- Claim C10: when startup validation succeeds (`startup_error is None`),
`config_list` is a non-empty list whose every element carries all four
required keys; consequently `_perform_ping` applied to any of its
elements returns a value — its `except` handler can dereference
`conf["name"]` — whatever the backend does. -/
theorem startup_ok_invariant (input : Except String JVal) (cs : List Dict)
    (h : loadConfig input = .ok cs) :
    cs ≠ [] ∧
    (∀ c ∈ cs, ∀ k ∈ requiredFields, (c.lookup k).isSome) ∧
    (∀ c ∈ cs, ∀ b : Backend, ∃ r, performPing c b = .ok r) := by
  cases input with
  | error m => cases h
  | ok v =>
      cases v with
      | obj f => cases h
      | other ty => cases h
      | arr elems =>
          unfold loadConfig validateConfig at h
          dsimp only at h
          by_cases hlen : elems.length = 0
          · rw [if_pos hlen] at h
            cases h
          · rw [if_neg hlen] at h
            obtain ⟨hl, hmf⟩ := checkElems_ok_props elems 0 cs h
            have hkeys : ∀ c ∈ cs, ∀ k ∈ requiredFields, (c.lookup k).isSome := by
              intro c hc k hk
              by_contra hnone
              have hmem : k ∈ missingFields c := by
                unfold missingFields
                rw [List.mem_filter]
                refine ⟨hk, ?_⟩
                simp only [hasKey, Bool.not_eq_true']
                exact Bool.not_eq_true _ ▸ hnone
              rw [hmf c hc] at hmem
              cases hmem
            refine ⟨?_, hkeys, ?_⟩
            · intro hnil
              rw [hnil] at hl
              exact hlen (by simpa using hl.symm)
            · intro c hc b
              obtain ⟨nm, hnm⟩ := Option.isSome_iff_exists.mp
                (hkeys c hc "name" (by decide))
              exact performPing_total b hnm

/-- Witness for C10: a one-element configuration array that validates,
yielding `config_list = [confA]`. -/
theorem startup_ok_invariant_witness :
    [confA] ≠ ([] : List Dict) ∧
    (∀ c ∈ [confA], ∀ k ∈ requiredFields, (c.lookup k).isSome) ∧
    (∀ c ∈ [confA], ∀ b : Backend, ∃ r, performPing c b = .ok r) :=
  startup_ok_invariant (.ok (.arr [.obj confA])) [confA] rfl

/-- The validation loop stops at the lowest offending element: an object
with missing fields raises the field-missing error naming that element's
index, a non-object element raises the attribute error naming only the
element's type. -/
theorem checkElems_first_bad (elems : List JVal) :
    ∀ start i, i < elems.length →
      (∀ j, j < i → elemOk (elems.getD j (.other "")) = true) →
      ((∀ d, elems.getD i (.other "") = .obj d → missingFields d ≠ [] →
          checkElems start elems =
            .error (.fieldMissing (start + i) (missingFields d))) ∧
       (∀ l, elems.getD i (.other "") = .arr l →
          checkElems start elems = .error (.noKeysAttr "list")) ∧
       (∀ ty, elems.getD i (.other "") = .other ty →
          checkElems start elems = .error (.noKeysAttr ty))) := by
  induction elems with
  | nil =>
      intro start i hi
      exact absurd hi (Nat.not_lt_zero i)
  | cons e rest ih =>
      intro start i hi hgood
      cases i with
      | zero =>
          refine ⟨?_, ?_, ?_⟩
          · intro d hd hm
            simp only [List.getD_cons_zero] at hd
            subst hd
            unfold checkElems
            rw [if_neg hm, Nat.add_zero]
          · intro l hl
            simp only [List.getD_cons_zero] at hl
            subst hl
            rfl
          · intro ty hty
            simp only [List.getD_cons_zero] at hty
            subst hty
            rfl
      | succ i =>
          have h0 : elemOk e = true := by simpa using hgood 0 (Nat.succ_pos i)
          cases e with
          | arr l => simp [elemOk] at h0
          | other ty => simp [elemOk] at h0
          | obj d0 =>
              have hm0 : missingFields d0 = [] := by
                simpa [elemOk, List.isEmpty_iff] using h0
              have hrest := ih (start + 1) i (by simpa using hi)
                (fun j hj => by simpa using hgood (j + 1) (by omega))
              have harith : start + (i + 1) = start + 1 + i := by omega
              refine ⟨?_, ?_, ?_⟩
              · intro d hd hm
                simp only [List.getD_cons_succ] at hd
                unfold checkElems
                rw [if_pos hm0, hrest.1 d hd hm]
                dsimp only
                rw [harith]
              · intro l hl
                simp only [List.getD_cons_succ] at hl
                unfold checkElems
                rw [if_pos hm0, hrest.2.1 l hl]
              · intro ty hty
                simp only [List.getD_cons_succ] at hty
                unfold checkElems
                rw [if_pos hm0, hrest.2.2 ty hty]

/-- Counterexample to C4 as stated: the decoded array `[5]` has an element
that does not contain the required keys, yet the recorded startup error
is the `AttributeError` from `conf.keys()` (an `int` has no `keys`), not
a field-missing error. -/
theorem config_validation_counterexample :
    loadConfig (.ok (.arr [.other "int"])) = .error (.noKeysAttr "int") ∧
    loadErrorIsFieldMissing (loadConfig (.ok (.arr [.other "int"]))) = false :=
  ⟨rfl, rfl⟩

/-- Claim C4, amended: validation order is (a) decode to an array type
(JSON decode failure keeps the decoder's error, a non-array value the
array-format error), (b) non-emptiness, (c) per element: the lowest
offending index decides which error is recorded — an object missing
required keys records the field-missing error naming that index and the
missing keys, while a non-object element records the attribute error
from `conf.keys()`, which names only the element's type (no index). -/
theorem config_validation_order (m : String) (f : Dict) (ty0 : String)
    (elems : List JVal) (i : Nat) :
    loadConfig (.error m) = .error (.decodeError m) ∧
    loadConfig (.ok (.obj f)) = .error .notArray ∧
    loadConfig (.ok (.other ty0)) = .error .notArray ∧
    loadConfig (.ok (.arr [])) = .error .emptyArray ∧
    (i < elems.length →
     (∀ j, j < i → elemOk (elems.getD j (.other "")) = true) →
     ((∀ d, elems.getD i (.other "") = .obj d → missingFields d ≠ [] →
        loadConfig (.ok (.arr elems)) =
          .error (.fieldMissing i (missingFields d))) ∧
      (∀ l, elems.getD i (.other "") = .arr l →
        loadConfig (.ok (.arr elems)) = .error (.noKeysAttr "list")) ∧
      (∀ ty, elems.getD i (.other "") = .other ty →
        loadConfig (.ok (.arr elems)) = .error (.noKeysAttr ty)))) := by
  refine ⟨rfl, rfl, rfl, rfl, ?_⟩
  intro hi hgood
  have hne : ¬ elems.length = 0 := by omega
  have h := checkElems_first_bad elems 0 i hi hgood
  have hload : loadConfig (.ok (.arr elems)) = checkElems 0 elems := by
    unfold loadConfig validateConfig
    dsimp only
    rw [if_neg hne]
  refine ⟨?_, ?_, ?_⟩
  · intro d hd hm
    rw [hload, h.1 d hd hm, Nat.zero_add]
  · intro l hl
    rw [hload, h.2.1 l hl]
  · intro ty hty
    rw [hload, h.2.2 ty hty]

/-- Witness for the amended C4: a decode failure, a non-array value, an
empty array, an object element at index 1 missing three fields, and a
non-object element at index 1 — whose recorded error carries no index,
so it coincides with the error `[5]` alone records. -/
theorem config_validation_order_witness :
    loadConfig (.error "Expecting value") =
      .error (.decodeError "Expecting value") ∧
    loadConfig (.ok (.obj [])) = .error .notArray ∧
    loadConfig (.ok (.arr [])) = .error .emptyArray ∧
    loadConfig (.ok (.arr [.obj confA, .obj [("name", "x")]])) =
      .error (.fieldMissing 1 (missingFields [("name", "x")])) ∧
    missingFields [("name", "x")] =
      ["supabase_url", "supabase_key", "table_name"] ∧
    loadConfig (.ok (.arr [.obj confA, .other "int"])) =
      .error (.noKeysAttr "int") := by
  have h := config_validation_order "Expecting value" [] "int"
    [.obj confA, .obj [("name", "x")]] 1
  have h2 := config_validation_order "Expecting value" [] "int"
    [.obj confA, .other "int"] 1
  refine ⟨h.1, h.2.1, h.2.2.2.1, ?_, by decide, ?_⟩
  · refine (h.2.2.2.2 (by decide) ?_).1 [("name", "x")] rfl (by decide)
    intro j hj
    have hj0 : j = 0 := by omega
    subst hj0
    decide
  · refine (h2.2.2.2.2 (by decide) ?_).2.2 "int" rfl
    intro j hj
    have hj0 : j = 0 := by omega
    subst hj0
    decide

end Keepalive
